import Mathlib

/-!
Shallow embedding of the cryptoprice conversion/aggregation core
(`src/calc.rs`, `src/main.rs`, `src/provider/mod.rs`, `src/provider/coingecko.rs`).

Modelling conventions:
* Rust `f64` values are modelled as exact rationals (`ℚ`); rounding and
  overflow of finite arithmetic are not modelled.  The one non-finite
  behaviour the claims depend on — division by zero producing an infinity —
  is modelled explicitly by the `FV` type below.
* Rust `HashMap` results (FX rate maps, decoded JSON objects) are modelled
  as association lists queried with `List.lookup`.
* `chrono::DateTime<Utc>` timestamps are modelled as `Int` (a total linear
  order is all the filtering code uses).
* Async calls are modelled by passing each fetch's result value
  (`Except Error α`) into the orchestration function.
-/

namespace Cryptoprice

/-- Modelled from the spec: the error kinds of §7 (`src/error.rs` is not in
the tree).  Variants and payloads match every use in `main.rs`,
`provider/mod.rs`, `provider/coingecko.rs` and the integration tests:
`Config`, `Api`, `Parse` carry a message string; `NoResults` carries none. -/
inductive Error where
  | Config (msg : String)
  | Api (msg : String)
  | Parse (msg : String)
  | NoResults
  deriving DecidableEq, Repr

/-- Model of an `f64` value: either an exact finite rational or one of the
non-finite IEEE values.  Finite arithmetic is exact (rounding not modelled);
division by zero follows IEEE-754 sign rules. -/
inductive FV where
  | fin (q : ℚ)
  | posInf
  | negInf
  | nan
  deriving DecidableEq, Repr

/-- `f64` multiplication, restricted to the finite operands the engine uses. -/
def fvMul : FV → FV → FV
  | .fin a, .fin b => .fin (a * b)
  | _, _ => .nan

/-- `f64` division: exact on finite operands with a non-zero divisor;
division of a non-zero finite value by zero yields a signed infinity,
`0.0 / 0.0` yields NaN (IEEE-754).  Non-finite operands are unused here. -/
def fvDiv : FV → FV → FV
  | .fin a, .fin b =>
      if b = 0 then
        if 0 < a then .posInf else if a < 0 then .negInf else .nan
      else .fin (a / b)
  | _, _ => .nan

/-- `f64::is_finite`. -/
def FV.isFinite : FV → Bool
  | .fin _ => true
  | _ => false

/-! ## `src/calc.rs` — the fiat lexer -/

/-- `KNOWN_FIAT` from `calc.rs`: recognized fiat currency codes. -/
def KNOWN_FIAT : List String :=
  ["USD", "EUR", "GBP", "JPY", "CNY", "CAD", "AUD", "CHF", "KRW", "INR",
   "BRL", "RUB", "TRY", "ZAR", "MXN", "SGD", "HKD", "NOK", "SEK", "DKK",
   "NZD", "PLN", "THB", "TWD", "CZK", "HUF", "ILS", "PHP", "MYR", "ARS",
   "CLP", "COP", "IDR", "SAR", "AED", "NGN", "VND", "PKR", "BDT", "EGP"]

/-- `FiatAmount` from `calc.rs` (amount is `f64` in the source; it is always
finite and positive by construction, so `ℚ` carries it exactly). -/
structure FiatAmount where
  amount : ℚ
  currency : String
  deriving DecidableEq, Repr

/-- Rust `str::to_uppercase` restricted to ASCII (character-wise upper-casing;
the two functions agree on the ASCII suffixes the claims quantify over). -/
def strUpper (s : String) : String :=
  ⟨s.data.map Char.toUpper⟩

/-- Rust `str::to_lowercase` restricted to ASCII. -/
def strLower (s : String) : String :=
  ⟨s.data.map Char.toLower⟩

/-- Digit-string value, `'0'..'9'` chars. -/
def digitsToNat (cs : List Char) : Nat :=
  cs.foldl (fun a c => 10 * a + (c.toNat - 48)) 0

/-- The unsigned-decimal fragment of Rust's `f64` string grammar
(`Digits '.'? Digits? | '.' Digits`): every character a digit or a single
dot, at least one digit.  The numeric prefixes `parse_fiat_amount` feeds it
contain no alphabetic characters, so the exponent/`inf`/`NaN` forms of the
full grammar are unreachable and not modelled.  The value is exact. -/
def parseDecCore (cs : List Char) : Option ℚ :=
  let intPart := cs.takeWhile (fun c => c ≠ '.')
  let rest := cs.dropWhile (fun c => c ≠ '.')
  let fracPart := rest.drop 1
  if intPart.all Char.isDigit && fracPart.all Char.isDigit
      && (!intPart.isEmpty || !fracPart.isEmpty) then
    some ((digitsToNat intPart : ℚ) + (digitsToNat fracPart : ℚ) / 10 ^ fracPart.length)
  else
    none

/-- Rust `str::parse::<f64>()` on the decimal fragment: optional sign, then
the unsigned core. -/
def parse_f64 (s : String) : Option ℚ :=
  match s.data with
  | '+' :: rest => parseDecCore rest
  | '-' :: rest => (parseDecCore rest).map (fun q => -q)
  | cs => parseDecCore cs

/-- `calc::parse_fiat_amount`: find the first ASCII-alphabetic character;
fail if none or at index 0; split there; uppercase the suffix and require
membership in `KNOWN_FIAT`; parse the numeric prefix and require a positive
(finite) value.  `Char.isAlpha` is exactly Rust's `is_ascii_alphabetic`. -/
def parse_fiat_amount (s : String) : Option FiatAmount :=
  match s.data.findIdx? Char.isAlpha with
  | none => none
  | some alphaStart =>
    if alphaStart = 0 then none
    else
      let numPart : String := ⟨s.data.take alphaStart⟩
      let codePart : String := ⟨s.data.drop alphaStart⟩
      let codeUpper := strUpper codePart
      if KNOWN_FIAT.contains codeUpper then
        match parse_f64 numPart with
        | some amount => if amount ≤ 0 then none else some ⟨amount, codeUpper⟩
        | none => none
      else none

/-- `calc::is_known_fiat`. -/
def is_known_fiat (s : String) : Bool :=
  KNOWN_FIAT.contains (strUpper s)

/-- `calc::fiat_name`: human-readable name, falling back to the code. -/
def fiat_name (code : String) : String :=
  match strUpper code with
  | "USD" => "US Dollar"
  | "EUR" => "Euro"
  | "GBP" => "British Pound"
  | "JPY" => "Japanese Yen"
  | "CNY" => "Chinese Yuan"
  | "CAD" => "Canadian Dollar"
  | "AUD" => "Australian Dollar"
  | "CHF" => "Swiss Franc"
  | "KRW" => "South Korean Won"
  | "INR" => "Indian Rupee"
  | "BRL" => "Brazilian Real"
  | "RUB" => "Russian Ruble"
  | "TRY" => "Turkish Lira"
  | "ZAR" => "South African Rand"
  | "MXN" => "Mexican Peso"
  | "SGD" => "Singapore Dollar"
  | "HKD" => "Hong Kong Dollar"
  | "NOK" => "Norwegian Krone"
  | "SEK" => "Swedish Krona"
  | "DKK" => "Danish Krone"
  | "NZD" => "New Zealand Dollar"
  | "PLN" => "Polish Zloty"
  | "THB" => "Thai Baht"
  | "TWD" => "New Taiwan Dollar"
  | "CZK" => "Czech Koruna"
  | "HUF" => "Hungarian Forint"
  | "ILS" => "Israeli Shekel"
  | "PHP" => "Philippine Peso"
  | "MYR" => "Malaysian Ringgit"
  | "ARS" => "Argentine Peso"
  | "CLP" => "Chilean Peso"
  | "COP" => "Colombian Peso"
  | "IDR" => "Indonesian Rupiah"
  | "SAR" => "Saudi Riyal"
  | "AED" => "UAE Dirham"
  | "NGN" => "Nigerian Naira"
  | "VND" => "Vietnamese Dong"
  | "PKR" => "Pakistani Rupee"
  | "BDT" => "Bangladeshi Taka"
  | "EGP" => "Egyptian Pound"
  | _ => code

/-- The character class `[0-9.]` of the claim's token regex. -/
def digitDotChars : List Char := "0123456789.".data

/-- The character class `[A-Za-z]` of the claim's token regex. -/
def asciiAlphaChars : List Char :=
  "ABCDEFGHIJKLMNOPQRSTUVWXYZabcdefghijklmnopqrstuvwxyz".data

/-! ## `src/provider/mod.rs` — shared result types -/

/-- `PricePoint` from `provider/mod.rs`; the timestamp is a UTC instant,
modelled as `Int`. -/
structure PricePoint where
  timestamp : Int
  price : ℚ
  deriving DecidableEq, Repr

/-- `PriceHistory` from `provider/mod.rs`. -/
structure PriceHistory where
  symbol : String
  name : String
  currency : String
  provider : String
  points : List PricePoint
  deriving DecidableEq, Repr

/-! ## `src/main.rs` — history windowing -/

/-- The point predicate of `filter_histories_by_time_window`:
`point.timestamp <= end && start.map(|s| point.timestamp >= s).unwrap_or(true)`. -/
def inWindow (start? : Option Int) (endTs : Int) (p : PricePoint) : Bool :=
  decide (p.timestamp ≤ endTs)
    && ((start?.map fun s => decide (s ≤ p.timestamp)).getD true)

/-- The per-series `retain` step of `filter_histories_by_time_window`. -/
def clipHistory (start? : Option Int) (endTs : Int) (h : PriceHistory) : PriceHistory :=
  { h with points := h.points.filter (inWindow start? endTs) }

/-- `main::filter_histories_by_time_window`: clip every series to the
window, then drop the series whose point list became empty.  The source
mutates in place; this is the same computation functionally. -/
def filter_histories_by_time_window (histories : List PriceHistory)
    (start? : Option Int) (endTs : Int) : List PriceHistory :=
  (histories.map (clipHistory start? endTs)).filter fun h => !h.points.isEmpty

/-! ## `src/provider/coingecko.rs` — the CoinGecko spot-price provider -/

/-- `CoinPrice` from `provider/mod.rs`. -/
structure CoinPrice where
  symbol : String
  name : String
  price : ℚ
  change_24h : Option ℚ
  market_cap : Option ℚ
  currency : String
  provider : String
  timestamp : Int
  deriving DecidableEq, Repr

/-- `coingecko::capitalize` (ASCII; Rust's `char::to_uppercase` agrees on
the lowercase ASCII input it receives). -/
def capitalize (s : String) : String :=
  match s.data with
  | [] => ""
  | c :: rest => ⟨c.toUpper :: rest⟩

/-- `CoinGecko::resolve`: map a ticker symbol to the CoinGecko API id and
display name, transcribed from the match table. -/
def resolve (symbol : String) : String × String :=
  let lower := strLower symbol
  match lower with
  | "btc" | "bitcoin" => ("bitcoin", "Bitcoin")
  | "eth" | "ethereum" => ("ethereum", "Ethereum")
  | "usdt" | "tether" => ("tether", "Tether")
  | "bnb" => ("binancecoin", "BNB")
  | "sol" | "solana" => ("solana", "Solana")
  | "xrp" | "ripple" => ("ripple", "XRP")
  | "usdc" => ("usd-coin", "USDC")
  | "ada" | "cardano" => ("cardano", "Cardano")
  | "doge" | "dogecoin" => ("dogecoin", "Dogecoin")
  | "dot" | "polkadot" => ("polkadot", "Polkadot")
  | "matic" | "polygon" => ("matic-network", "Polygon")
  | "ltc" | "litecoin" => ("litecoin", "Litecoin")
  | "avax" | "avalanche" => ("avalanche-2", "Avalanche")
  | "link" | "chainlink" => ("chainlink", "Chainlink")
  | "atom" | "cosmos" => ("cosmos", "Cosmos")
  | "uni" | "uniswap" => ("uniswap", "Uniswap")
  | "xlm" | "stellar" => ("stellar", "Stellar")
  | "shib" => ("shiba-inu", "Shiba Inu")
  | "trx" | "tron" => ("tron", "TRON")
  | "ton" => ("the-open-network", "Toncoin")
  | "pepe" => ("pepe", "Pepe")
  | "near" => ("near", "NEAR")
  | "apt" | "aptos" => ("aptos", "Aptos")
  | "arb" | "arbitrum" => ("arbitrum", "Arbitrum")
  | "op" | "optimism" => ("optimism", "Optimism")
  | "sui" => ("sui", "Sui")
  | _ => (lower, capitalize lower)

/-- The decoded `/simple/price` response shape (`SimplePrice` in
`coingecko.rs`): coin id → (currency key → value). -/
abbrev SimplePrice := List (String × List (String × ℚ))

/-- One iteration of the `get_prices` result loop, for one input symbol
(`resolved = symbols.map resolve` is enumerated index-aligned with
`symbols`, so the loop is a `filterMap` over the symbols): if the response
holds the resolved coin id, build a `CoinPrice`, substituting `0.0` when
the requested currency key is absent (`…get(&cur).copied().unwrap_or(0.0)`);
otherwise the symbol contributes nothing.  `cur` is the already-lowercased
currency. -/
def coinOf (data : SimplePrice) (cur : String) (now : Int) (s : String) :
    Option CoinPrice :=
  let (cgId, displayName) := resolve s
  match data.lookup cgId with
  | some coinData =>
      some { symbol := strUpper s
             name := displayName
             price := (coinData.lookup cur).getD 0
             change_24h := coinData.lookup (cur ++ "_24h_change")
             market_cap := coinData.lookup (cur ++ "_market_cap")
             currency := strUpper cur
             provider := "CoinGecko"
             timestamp := now }
  | none => none

/-- `CoinGecko::get_prices` after a successful HTTP round-trip and JSON
decode (the Api/Parse error paths for failed requests are upstream of the
behaviour the claims describe): collect a `CoinPrice` per matched symbol,
and fail with `NoResults` iff the collected list is empty. -/
def getPricesCG (data : SimplePrice) (now : Int) (symbols : List String)
    (currency : String) : Except Error (List CoinPrice) :=
  let cur := strLower currency
  let results := symbols.filterMap (coinOf data cur now)
  if results.isEmpty then .error .NoResults else .ok results

/-! ## `src/main.rs` — the calc-mode conversion engine -/

/-- `Conversion` from `calc.rs`.  `to_amount` and `rate` are computed by
`f64` multiplication/division in the source, so they carry `FV` values. -/
structure Conversion where
  from_amount : ℚ
  from_currency : String
  to_symbol : String
  to_name : String
  to_amount : FV
  rate : FV
  provider : String
  timestamp : Int
  deriving DecidableEq, Repr

/-- An FX rate map (`HashMap<String, f64>` from Frankfurter) as an
association list. -/
abbrev RatesMap := List (String × ℚ)

/-- The fiat-target loop body of calc mode (`main.rs`): the conversion
record pushed for a fiat target whose uppercased code resolved to `rate`. -/
def fiatConversion (fiat : FiatAmount) (now : Int) (target : String)
    (rate : ℚ) : Conversion :=
  let upper := strUpper target
  { from_amount := fiat.amount
    from_currency := fiat.currency
    to_symbol := upper
    to_name := fiat_name upper
    to_amount := fvMul (.fin fiat.amount) (.fin rate)
    rate := fvDiv (.fin 1) (.fin rate)
    provider := "Frankfurter/ECB"
    timestamp := now }

/-- The crypto-price loop body of calc mode (`main.rs`): the conversion
record pushed for a returned `CoinPrice`. -/
def cryptoConversion (fiat : FiatAmount) (now : Int) (p : CoinPrice) :
    Conversion :=
  { from_amount := fiat.amount
    from_currency := fiat.currency
    to_symbol := p.symbol
    to_name := p.name
    to_amount := fvDiv (.fin fiat.amount) (.fin p.price)
    rate := .fin p.price
    provider := p.provider
    timestamp := now }

/-- Calc mode of `main::run` after `parse_fiat_amount` matched: partition
the targets into fiat and crypto, dispatch on the partition shape, and
assemble the conversion list.  The two async fetches are modelled by their
result values: once `tokio::join!` has completed, the assembly is a pure
function of both results, so completion order cannot influence it.  The
push-if-resolved loops become `filterMap`/`map`; the `(true, true)` arm is
`unreachable!()` in the source (guarded by the emptiness check) and is
modelled by an error value. -/
def convertCalc (fiat : FiatAmount) (now : Int) (targets : List String)
    (fiat_result : Except Error RatesMap)
    (crypto_result : Except Error (List CoinPrice)) :
    Except Error (List Conversion) :=
  if targets.isEmpty then
    .error (.Config
      "calc mode requires at least one target coin -- usage: cryptoprice 3.5EUR xmr")
  else
    let parts := targets.partition (fun t => is_known_fiat t)
    match parts.1.isEmpty, parts.2.isEmpty with
    | false, false => do
        let rates ← fiat_result
        let fiatConvs := parts.1.filterMap fun t =>
          (rates.lookup (strUpper t)).map (fiatConversion fiat now t)
        let prices ← crypto_result
        pure (fiatConvs ++ prices.map (cryptoConversion fiat now))
    | false, true => do
        let rates ← fiat_result
        pure (parts.1.filterMap fun t =>
          (rates.lookup (strUpper t)).map (fiatConversion fiat now t))
    | true, false => do
        let prices ← crypto_result
        pure (prices.map (cryptoConversion fiat now))
    | true, true => .error (.Config "unreachable")

/-- Test fixture: a well-formed `/simple/price` response whose `bitcoin`
entry lacks the requested `usd` key (CoinGecko then substitutes `0.0`). -/
def btcNoUsdData : SimplePrice := [("bitcoin", [("usd_24h_change", 5)])]

/-- The `CoinPrice` that `get_prices` builds from `btcNoUsdData` for input
symbol `btc`, currency `usd`, at time 7: its `price` is `0`. -/
def zeroPriceCoin : CoinPrice :=
  { symbol := "BTC", name := "Bitcoin", price := 0, change_24h := some 5,
    market_cap := none, currency := "USD", provider := "CoinGecko",
    timestamp := 7 }

/-! ## `src/main.rs` — chart fetch orchestration (window → day-count
fallback) -/

/-- The substring `main.rs` tests the Config message against before falling
back to the day-count fetch. -/
def windowUnsupportedMsg : String := "does not support explicit chart date windows"

/-- Rust `str::contains` on string patterns: substring containment. -/
def containsSub (s pat : String) : Bool :=
  decide (pat.data <:+: s.data)

/-- A single-quote character as a string (the provider error messages
quote the provider id with it). -/
def sq : String := ⟨['\'']⟩

/-- The default `get_price_history_window` implementation of the
`PriceProvider` trait (`provider/mod.rs`): a Config error naming the
provider (in the source, `format!("provider ...")` wraps the id in single
quotes). -/
def defaultWindowError (id : String) : Error :=
  .Config ("provider " ++ sq ++ id ++ sq
    ++ " does not support explicit chart date windows")

/-- Chart-mode fetch orchestration from `main::run`: try the explicit
window fetch; on a Config error whose message contains
`windowUnsupportedMsg`, use the day-count fetch's result (its own error,
if any, propagates through `?`); any other error propagates unchanged.
The two fetches are modelled by their result values; the day-count result
is consulted only in the fallback arm. -/
def fetchHistoryOrchestration
    (windowResult dayResult : Except Error (List PriceHistory)) :
    Except Error (List PriceHistory) :=
  match windowResult with
  | .ok histories => .ok histories
  | .error (.Config message) =>
      if containsSub message windowUnsupportedMsg then dayResult
      else .error (.Config message)
  | .error other => .error other

/-! ## `src/main.rs` — chart-range resolver (dates) -/

/-- `chrono::NaiveDate`, proleptic Gregorian. -/
structure NaiveDate where
  year : Int
  month : Nat
  day : Nat
  deriving DecidableEq, Repr

/-- chrono's minimum representable year (`i32::MIN >> 13`). -/
def MIN_YEAR : Int := -262144

/-- chrono's maximum representable year (`i32::MAX >> 13`). -/
def MAX_YEAR : Int := 262143

/-- Proleptic Gregorian leap-year rule. -/
def isLeapYear (y : Int) : Bool :=
  y % 4 = 0 && (y % 100 ≠ 0 || y % 400 = 0)

/-- Days in a month of a given year (0 for an invalid month index). -/
def daysInMonth (y : Int) (m : Nat) : Nat :=
  match m with
  | 1 => 31
  | 2 => if isLeapYear y then 29 else 28
  | 3 => 31
  | 4 => 30
  | 5 => 31
  | 6 => 30
  | 7 => 31
  | 8 => 31
  | 9 => 30
  | 10 => 31
  | 11 => 30
  | 12 => 31
  | _ => 0

/-- A structurally valid in-range date. -/
def ValidDate (d : NaiveDate) : Prop :=
  MIN_YEAR ≤ d.year ∧ d.year ≤ MAX_YEAR ∧ 1 ≤ d.month ∧ d.month ≤ 12 ∧
    1 ≤ d.day ∧ d.day ≤ daysInMonth d.year d.month

/-- Days since 1970-01-01 of a civil date (the standard proleptic-Gregorian
day-number algorithm, as chrono computes internally; floor division). -/
def daysFromCivil (y : Int) (m d : Nat) : Int :=
  let y' : Int := if m ≤ 2 then y - 1 else y
  let era : Int := y'.fdiv 400
  let yoe : Int := y' - era * 400
  let doy : Int :=
    (153 * (if 2 < m then (m : Int) - 3 else (m : Int) + 9) + 2).fdiv 5
      + (d : Int) - 1
  let doe : Int := yoe * 365 + yoe.fdiv 4 - yoe.fdiv 100 + doy
  era * 146097 + doe - 719468

/-- Civil date of a day number since 1970-01-01 (inverse of
`daysFromCivil`). -/
def civilFromDays (z : Int) : NaiveDate :=
  let z' := z + 719468
  let era := z'.fdiv 146097
  let doe := z' - era * 146097
  let yoe := (doe - doe.fdiv 1460 + doe.fdiv 36524 - doe.fdiv 146096).fdiv 365
  let y := yoe + era * 400
  let doy := doe - (365 * yoe + yoe.fdiv 4 - yoe.fdiv 100)
  let mp := (5 * doy + 2).fdiv 153
  let d := doy - (153 * mp + 2).fdiv 5 + 1
  let m := if mp < 10 then mp + 3 else mp - 9
  ⟨if m ≤ 2 then y + 1 else y, m.toNat, d.toNat⟩

/-- `date - chrono::Duration::days(n)` (chrono's out-of-range panic is not
modelled; the claims stay inside the representable range). -/
def subDays (dt : NaiveDate) (n : Int) : NaiveDate :=
  civilFromDays (daysFromCivil dt.year dt.month dt.day - n)

/-- `chrono::NaiveDate::checked_sub_months`: shift back by whole months,
clamping the day-of-month to the target month's length; `none` when the
result falls below chrono's representable range. -/
def checked_sub_months (dt : NaiveDate) (n : Nat) : Option NaiveDate :=
  let total : Int := dt.year * 12 + ((dt.month : Int) - 1) - n
  let y := total.fdiv 12
  let m := (total.emod 12).toNat + 1
  if y < MIN_YEAR then none
  else some ⟨y, m, min dt.day (daysInMonth y m)⟩

/-- `chrono::NaiveDate::from_ymd_opt`. -/
def from_ymd_opt (y : Int) (m d : Nat) : Option NaiveDate :=
  if MIN_YEAR ≤ y ∧ y ≤ MAX_YEAR ∧ 1 ≤ m ∧ m ≤ 12 ∧ 1 ≤ d ∧
      d ≤ daysInMonth y m then
    some ⟨y, m, d⟩
  else none

/-- `ChartRangeArg` from `main.rs`. -/
inductive ChartRangeArg where
  | OneDay
  | FiveDays
  | OneMonth
  | SixMonths
  | Ytd
  | OneYear
  | FiveYears
  | All
  deriving DecidableEq, Repr

/-- `ChartRangeArg::start_date`, transcribed arm by arm (`.or(Some(..))`
is `Option.or (… ) (some …)`). -/
def ChartRangeArg.start_date (self : ChartRangeArg) (end_date : NaiveDate) :
    Option NaiveDate :=
  match self with
  | .OneDay => some (subDays end_date 1)
  | .FiveDays => some (subDays end_date 5)
  | .OneMonth =>
      (checked_sub_months end_date 1).or (some (subDays end_date 30))
  | .SixMonths =>
      (checked_sub_months end_date 6).or (some (subDays end_date 182))
  | .Ytd => from_ymd_opt end_date.year 1 1
  | .OneYear =>
      (checked_sub_months end_date 12).or (some (subDays end_date 365))
  | .FiveYears =>
      (checked_sub_months end_date 60).or (some (subDays end_date (365 * 5)))
  | .All => none

/-! ## Theorems -/

lemma isAlpha_of_mem_alphaChars : ∀ c ∈ asciiAlphaChars, c.isAlpha = true := by
  decide

lemma not_isAlpha_of_mem_digitDot : ∀ c ∈ digitDotChars, c.isAlpha = false := by
  decide

lemma parse_fiat_amount_mk (cs : List Char) :
    parse_fiat_amount ⟨cs⟩ =
      match cs.findIdx? Char.isAlpha with
      | none => none
      | some alphaStart =>
        if alphaStart = 0 then none
        else
          let codeUpper := strUpper ⟨cs.drop alphaStart⟩
          if KNOWN_FIAT.contains codeUpper then
            match parse_f64 ⟨cs.take alphaStart⟩ with
            | some amount => if amount ≤ 0 then none else some ⟨amount, codeUpper⟩
            | none => none
          else none := rfl

/-- On any token of the claim's shape `sign? ++ [0-9.]+ ++ [A-Za-z]+`, the
lexer splits exactly at the numeric/alphabetic boundary. -/
lemma parse_fiat_amount_shape (sign nums alphas : List Char)
    (hsign : sign = [] ∨ sign = ['+'] ∨ sign = ['-'])
    (hne : nums ≠ []) (hnums : ∀ c ∈ nums, c ∈ digitDotChars)
    (hane : alphas ≠ []) (halpha : ∀ c ∈ alphas, c ∈ asciiAlphaChars) :
    parse_fiat_amount ⟨sign ++ nums ++ alphas⟩ =
      (if KNOWN_FIAT.contains (strUpper ⟨alphas⟩) then
        match parse_f64 ⟨sign ++ nums⟩ with
        | some amount =>
            if amount ≤ 0 then none else some ⟨amount, strUpper ⟨alphas⟩⟩
        | none => none
      else none) := by
  obtain ⟨a, rest, rfl⟩ : ∃ a rest, alphas = a :: rest := by
    cases alphas with
    | nil => exact absurd rfl hane
    | cons a rest => exact ⟨a, rest, rfl⟩
  have hnone : (sign ++ nums).findIdx? Char.isAlpha = none := by
    rw [List.findIdx?_eq_none_iff]
    intro c hc
    rcases List.mem_append.1 hc with h | h
    · rcases hsign with rfl | rfl | rfl
      · simp at h
      · simp at h; subst h; decide
      · simp at h; subst h; decide
    · exact not_isAlpha_of_mem_digitDot c (hnums c h)
  have hhead : Char.isAlpha a = true :=
    isAlpha_of_mem_alphaChars a (halpha a (List.mem_cons_self a rest))
  have hfind : ((sign ++ nums) ++ (a :: rest)).findIdx? Char.isAlpha
      = some (sign ++ nums).length := by
    rw [List.findIdx?_append, hnone, List.findIdx?_cons, if_pos hhead]
    simp
  have hlen : (sign ++ nums).length ≠ 0 := by
    simp only [List.length_append]
    have : nums.length ≠ 0 := fun h => hne (List.length_eq_zero.1 h)
    omega
  rw [List.append_assoc] at hfind ⊢
  rw [parse_fiat_amount_mk, hfind]
  simp only [hlen, if_false, ← List.append_assoc, List.take_left, List.drop_left]

/-- C3: for every token matching `/^[+-]?[0-9.]+[A-Za-z]+$/`,
`parse_fiat_amount` returns `some` iff the alphabetic suffix, uppercased,
is a known fiat code and the numeric prefix parses to a positive (finite)
decimal; on success the result carries the parsed amount and the uppercased
code.  Concretely, `"3.5EUR"` gives `{3.5, EUR}`, `"100usd"` gives
`{100, USD}`, while `"1inch"`, `"-5USD"`, `"0USD"` and `"EUR"` give none. -/
theorem C3_parse_fiat_amount_spec :
    (∀ sign nums alphas : List Char,
      (sign = [] ∨ sign = ['+'] ∨ sign = ['-']) →
      nums ≠ [] → (∀ c ∈ nums, c ∈ digitDotChars) →
      alphas ≠ [] → (∀ c ∈ alphas, c ∈ asciiAlphaChars) →
      (((parse_fiat_amount ⟨sign ++ nums ++ alphas⟩).isSome = true) ↔
        (KNOWN_FIAT.contains (strUpper ⟨alphas⟩) = true ∧
          ∃ q : ℚ, parse_f64 ⟨sign ++ nums⟩ = some q ∧ 0 < q)) ∧
      (∀ fa, parse_fiat_amount ⟨sign ++ nums ++ alphas⟩ = some fa →
        parse_f64 ⟨sign ++ nums⟩ = some fa.amount ∧
        fa.currency = strUpper ⟨alphas⟩)) ∧
    parse_fiat_amount "3.5EUR" = some ⟨7/2, "EUR"⟩ ∧
    parse_fiat_amount "100usd" = some ⟨100, "USD"⟩ ∧
    parse_fiat_amount "1inch" = none ∧
    parse_fiat_amount "-5USD" = none ∧
    parse_fiat_amount "0USD" = none ∧
    parse_fiat_amount "EUR" = none := by
  refine ⟨?_, ?_, ?_, by decide, ?_, ?_, by decide⟩
  · intro sign nums alphas hsign hne hnums hane halpha
    rw [parse_fiat_amount_shape sign nums alphas hsign hne hnums hane halpha]
    by_cases hc : KNOWN_FIAT.contains (strUpper ⟨alphas⟩) = true
    · rw [if_pos hc]
      rcases hp : parse_f64 ⟨sign ++ nums⟩ with _ | q
      · constructor
        · simp [hc]
        · intro fa h; cases h
      · dsimp only
        by_cases hq : q ≤ 0
        · rw [if_pos hq]
          constructor
          · constructor
            · intro h; cases h
            · rintro ⟨-, q', hq', hpos⟩
              rw [Option.some_inj] at hq'
              exact absurd hq (not_le.2 (hq' ▸ hpos))
          · intro fa h; cases h
        · rw [if_neg hq]
          constructor
          · constructor
            · intro _; exact ⟨hc, q, rfl, not_le.1 hq⟩
            · intro _; rfl
          · intro fa h
            rw [Option.some_inj] at h
            subst h
            exact ⟨rfl, rfl⟩
    · rw [if_neg hc]
      constructor
      · constructor
        · intro h; cases h
        · rintro ⟨h, -⟩; exact absurd h hc
      · intro fa h; cases h
  · have h : parse_fiat_amount "3.5EUR"
        = (if ((3:ℚ) + 5 / 10 ≤ 0) then none
           else some ⟨(3:ℚ) + 5 / 10, "EUR"⟩) := rfl
    rw [h, if_neg (by norm_num)]
    norm_num [FiatAmount.mk.injEq]
  · have h : parse_fiat_amount "100usd"
        = (if ((100:ℚ) + 0 / 1 ≤ 0) then none
           else some ⟨(100:ℚ) + 0 / 1, "USD"⟩) := rfl
    rw [h, if_neg (by norm_num)]
    norm_num [FiatAmount.mk.injEq]
  · have h : parse_fiat_amount "-5USD"
        = (if (-((5:ℚ) + 0 / 1) ≤ 0) then none
           else some ⟨-((5:ℚ) + 0 / 1), "USD"⟩) := rfl
    rw [h, if_pos (by norm_num)]
  · have h : parse_fiat_amount "0USD"
        = (if ((0:ℚ) + 0 / 1 ≤ 0) then none
           else some ⟨(0:ℚ) + 0 / 1, "USD"⟩) := rfl
    rw [h, if_pos (by norm_num)]

/-- Witness for C3: the general clause applied to the token `42gbp`
(`sign = []`, digits `42`, suffix `gbp`). -/
theorem C3_parse_fiat_amount_spec_witness :
    (((parse_fiat_amount ⟨[] ++ ['4', '2'] ++ ['g', 'b', 'p']⟩).isSome = true) ↔
      (KNOWN_FIAT.contains (strUpper ⟨['g', 'b', 'p']⟩) = true ∧
        ∃ q : ℚ, parse_f64 ⟨[] ++ ['4', '2']⟩ = some q ∧ 0 < q)) ∧
    (∀ fa, parse_fiat_amount ⟨[] ++ ['4', '2'] ++ ['g', 'b', 'p']⟩ = some fa →
      parse_f64 ⟨[] ++ ['4', '2']⟩ = some fa.amount ∧
      fa.currency = strUpper ⟨['g', 'b', 'p']⟩) :=
  C3_parse_fiat_amount_spec.1 [] ['4', '2'] ['g', 'b', 'p']
    (Or.inl rfl) (by decide) (by decide) (by decide) (by decide)

lemma inWindow_iff (start? : Option Int) (endTs : Int) (p : PricePoint) :
    inWindow start? endTs p = true ↔
      p.timestamp ≤ endTs ∧ ∀ s, start? = some s → s ≤ p.timestamp := by
  cases start? <;> simp [inWindow]

/-- C5: the window filter retains, in every series, exactly the points with
`timestamp <= end` that also satisfy the start bound when one is present;
it drops exactly the series whose point list became empty, and leaves the
other fields of every series unchanged. -/
theorem C5_window_filter_spec :
    ∀ (hs : List PriceHistory) (start? : Option Int) (e : Int),
      (∀ h : PriceHistory, ∀ p : PricePoint,
        p ∈ (clipHistory start? e h).points ↔
          p ∈ h.points ∧ p.timestamp ≤ e ∧ ∀ s, start? = some s → s ≤ p.timestamp) ∧
      (∀ h : PriceHistory,
        (clipHistory start? e h).symbol = h.symbol ∧
        (clipHistory start? e h).name = h.name ∧
        (clipHistory start? e h).currency = h.currency ∧
        (clipHistory start? e h).provider = h.provider) ∧
      (∀ h' : PriceHistory,
        h' ∈ filter_histories_by_time_window hs start? e ↔
          h' ∈ hs.map (clipHistory start? e) ∧ h'.points ≠ []) := by
  intro hs start? e
  refine ⟨?_, ?_, ?_⟩
  · intro h p
    rw [clipHistory, List.mem_filter, inWindow_iff]
  · intro h
    exact ⟨rfl, rfl, rfl, rfl⟩
  · intro h'
    rw [filter_histories_by_time_window, List.mem_filter]
    simp [List.isEmpty_iff]

/-- Witness for C5, at a two-point series with window `[5, 10]`. -/
theorem C5_window_filter_spec_witness :
    (⟨6, 1⟩ : PricePoint) ∈
        (clipHistory (some 5) 10 ⟨"BTC", "Bitcoin", "USD", "CoinGecko",
          [⟨6, 1⟩, ⟨20, 2⟩]⟩).points ↔
      (⟨6, 1⟩ : PricePoint) ∈
          [(⟨6, 1⟩ : PricePoint), ⟨20, 2⟩] ∧
        (6 : Int) ≤ 10 ∧ ∀ s, (some 5 : Option Int) = some s → s ≤ 6 :=
  (C5_window_filter_spec [⟨"BTC", "Bitcoin", "USD", "CoinGecko",
    [⟨6, 1⟩, ⟨20, 2⟩]⟩] (some 5) 10).1
    ⟨"BTC", "Bitcoin", "USD", "CoinGecko", [⟨6, 1⟩, ⟨20, 2⟩]⟩ ⟨6, 1⟩

/-- C8: the window filter is idempotent — re-applying it with the same
bounds removes no further points and no further series. -/
theorem C8_window_filter_idempotent :
    ∀ (hs : List PriceHistory) (start? : Option Int) (e : Int),
      filter_histories_by_time_window
          (filter_histories_by_time_window hs start? e) start? e =
        filter_histories_by_time_window hs start? e := by
  intro hs start? e
  have hclip : ∀ h, clipHistory start? e (clipHistory start? e h)
      = clipHistory start? e h := by
    intro h
    simp [clipHistory, List.filter_filter]
  rw [filter_histories_by_time_window, filter_histories_by_time_window]
  have hfix : ∀ h' ∈ (hs.map (clipHistory start? e)).filter
      (fun h => !h.points.isEmpty), clipHistory start? e h' = h' := by
    intro h' hh'
    obtain ⟨x, -, rfl⟩ := List.mem_map.1 (List.mem_filter.1 hh').1
    exact hclip x
  rw [List.map_congr_left hfix, List.map_id', List.filter_filter]
  simp only [Bool.and_self]

/-- C9: the window filter preserves order — every surviving series keeps
its points as a subsequence of the original point list (so chronologically
non-decreasing series stay non-decreasing), and the surviving series appear
in their original relative order. -/
theorem C9_window_filter_order :
    ∀ (hs : List PriceHistory) (start? : Option Int) (e : Int),
      (filter_histories_by_time_window hs start? e).Sublist
        (hs.map (clipHistory start? e)) ∧
      (∀ h : PriceHistory, (clipHistory start? e h).points.Sublist h.points) ∧
      (∀ h : PriceHistory,
        h.points.Pairwise (fun p q => p.timestamp ≤ q.timestamp) →
        (clipHistory start? e h).points.Pairwise
          (fun p q => p.timestamp ≤ q.timestamp)) := by
  intro hs start? e
  refine ⟨List.filter_sublist _, fun h => List.filter_sublist _, fun h hp => ?_⟩
  exact hp.sublist (List.filter_sublist _)

/-- Witness for C9: the monotonicity clause at a concrete two-point series. -/
theorem C9_window_filter_order_witness :
    (clipHistory (some 5) 10 ⟨"BTC", "Bitcoin", "USD", "CoinGecko",
      [⟨6, 1⟩, ⟨20, 2⟩]⟩).points.Pairwise
      (fun p q => p.timestamp ≤ q.timestamp) :=
  (C9_window_filter_order [⟨"BTC", "Bitcoin", "USD", "CoinGecko",
    [⟨6, 1⟩, ⟨20, 2⟩]⟩] (some 5) 10).2.2
    ⟨"BTC", "Bitcoin", "USD", "CoinGecko", [⟨6, 1⟩, ⟨20, 2⟩]⟩
    (by simp)

lemma convertCalc_both (fiat : FiatAmount) (now : Int) (targets : List String)
    (fr : Except Error RatesMap) (cr : Except Error (List CoinPrice))
    (hf : targets.filter (fun t => is_known_fiat t) ≠ [])
    (hc : targets.filter (not ∘ fun t => is_known_fiat t) ≠ []) :
    convertCalc fiat now targets fr cr = (do
      let rates ← fr
      let prices ← cr
      pure ((targets.filter (fun t => is_known_fiat t)).filterMap (fun t =>
          (rates.lookup (strUpper t)).map (fiatConversion fiat now t))
        ++ prices.map (cryptoConversion fiat now))) := by
  have hne : targets.isEmpty = false := by
    rw [List.isEmpty_eq_false]
    rintro rfl
    simp at hf
  have h1 : (targets.filter (fun t => is_known_fiat t)).isEmpty = false :=
    List.isEmpty_eq_false.2 hf
  have h2 : (targets.filter (not ∘ fun t => is_known_fiat t)).isEmpty = false :=
    List.isEmpty_eq_false.2 hc
  rw [convertCalc]
  simp only [hne, Bool.false_eq_true, if_false, List.partition_eq_filter_filter,
    h1, h2]

lemma convertCalc_fiat_only (fiat : FiatAmount) (now : Int)
    (targets : List String) (fr : Except Error RatesMap)
    (cr : Except Error (List CoinPrice))
    (hf : targets.filter (fun t => is_known_fiat t) ≠ [])
    (hc : targets.filter (not ∘ fun t => is_known_fiat t) = []) :
    convertCalc fiat now targets fr cr = (do
      let rates ← fr
      pure ((targets.filter (fun t => is_known_fiat t)).filterMap fun t =>
        (rates.lookup (strUpper t)).map (fiatConversion fiat now t))) := by
  have hne : targets.isEmpty = false := by
    rw [List.isEmpty_eq_false]
    rintro rfl
    simp at hf
  have h1 : (targets.filter (fun t => is_known_fiat t)).isEmpty = false :=
    List.isEmpty_eq_false.2 hf
  have h2 : (targets.filter (not ∘ fun t => is_known_fiat t)).isEmpty = true :=
    List.isEmpty_iff.2 hc
  rw [convertCalc]
  simp only [hne, Bool.false_eq_true, if_false, List.partition_eq_filter_filter,
    h1, h2]

lemma convertCalc_crypto_only (fiat : FiatAmount) (now : Int)
    (targets : List String) (fr : Except Error RatesMap)
    (cr : Except Error (List CoinPrice))
    (hf : targets.filter (fun t => is_known_fiat t) = [])
    (hc : targets.filter (not ∘ fun t => is_known_fiat t) ≠ []) :
    convertCalc fiat now targets fr cr = (do
      let prices ← cr
      pure (prices.map (cryptoConversion fiat now))) := by
  have hne : targets.isEmpty = false := by
    rw [List.isEmpty_eq_false]
    rintro rfl
    simp at hc
  have h1 : (targets.filter (fun t => is_known_fiat t)).isEmpty = true :=
    List.isEmpty_iff.2 hf
  have h2 : (targets.filter (not ∘ fun t => is_known_fiat t)).isEmpty = false :=
    List.isEmpty_eq_false.2 hc
  rw [convertCalc]
  simp only [hne, Bool.false_eq_true, if_false, List.partition_eq_filter_filter,
    h1, h2]

lemma targets_nil_of_filters_nil (targets : List String)
    (hf : targets.filter (fun t => is_known_fiat t) = [])
    (hc : targets.filter (not ∘ fun t => is_known_fiat t) = []) :
    targets = [] := by
  cases targets with
  | nil => rfl
  | cons t ts =>
    exfalso
    rcases hk : is_known_fiat t with _ | _
    · have : t ∈ List.filter (not ∘ fun t => is_known_fiat t) (t :: ts) :=
        List.mem_filter.2 ⟨List.mem_cons_self t ts, by simp [hk]⟩
      rw [hc] at this
      cases this
    · have : t ∈ List.filter (fun t => is_known_fiat t) (t :: ts) :=
        List.mem_filter.2 ⟨List.mem_cons_self t ts, hk⟩
      rw [hf] at this
      cases this

/-- Every conversion the engine emits comes from one of the two loop
bodies, applied to a resolved FX rate or a returned price. -/
lemma convertCalc_mem (fiat : FiatAmount) (now : Int) (targets : List String)
    (fr : Except Error RatesMap) (cr : Except Error (List CoinPrice))
    (convs : List Conversion) (c : Conversion)
    (h : convertCalc fiat now targets fr cr = .ok convs) (hcm : c ∈ convs) :
    (∃ rates t r, fr = .ok rates ∧ t ∈ targets ∧ is_known_fiat t = true ∧
      rates.lookup (strUpper t) = some r ∧ c = fiatConversion fiat now t r) ∨
    (∃ prices p, cr = .ok prices ∧ p ∈ prices ∧
      c = cryptoConversion fiat now p) := by
  by_cases hf : targets.filter (fun t => is_known_fiat t) = []
  · by_cases hc : targets.filter (not ∘ fun t => is_known_fiat t) = []
    · rw [targets_nil_of_filters_nil targets hf hc] at h
      rw [convertCalc] at h
      cases h
    · rw [convertCalc_crypto_only fiat now targets fr cr hf hc] at h
      cases cr with
      | error e => cases h
      | ok prices =>
        injection h with h
        subst h
        obtain ⟨p, hp, rfl⟩ := List.mem_map.1 hcm
        exact Or.inr ⟨prices, p, rfl, hp, rfl⟩
  · by_cases hc : targets.filter (not ∘ fun t => is_known_fiat t) = []
    · rw [convertCalc_fiat_only fiat now targets fr cr hf hc] at h
      cases fr with
      | error e => cases h
      | ok rates =>
        injection h with h
        subst h
        obtain ⟨t, ht, hmap⟩ := List.mem_filterMap.1 hcm
        obtain ⟨r, hr, rfl⟩ := Option.map_eq_some'.1 hmap
        obtain ⟨htt, hkn⟩ := List.mem_filter.1 ht
        exact Or.inl ⟨rates, t, r, rfl, htt, hkn, hr, rfl⟩
    · rw [convertCalc_both fiat now targets fr cr hf hc] at h
      cases fr with
      | error e => cases h
      | ok rates =>
        cases cr with
        | error e => cases h
        | ok prices =>
          injection h with h
          subst h
          rcases List.mem_append.1 hcm with hmem | hmem
          · obtain ⟨t, ht, hmap⟩ := List.mem_filterMap.1 hmem
            obtain ⟨r, hr, rfl⟩ := Option.map_eq_some'.1 hmap
            obtain ⟨htt, hkn⟩ := List.mem_filter.1 ht
            exact Or.inl ⟨rates, t, r, rfl, htt, hkn, hr, rfl⟩
          · obtain ⟨p, hp, rfl⟩ := List.mem_map.1 hmem
            exact Or.inr ⟨prices, p, rfl, hp, rfl⟩

/-- C1: a fiat conversion built from resolved FX rate `r` has
`to_amount = from_amount * r`, `rate = 1/r` and the FX source's fixed
provider label; a crypto conversion built from price `p` has
`to_amount = from_amount / p.price`, `rate = p.price` and
`provider = p.provider`; and every conversion the engine emits is built by
exactly these two rules from a resolved rate or a returned price. -/
theorem C1_conversion_conventions :
    (∀ (fiat : FiatAmount) (now : Int) (t : String) (r : ℚ), r ≠ 0 →
      (fiatConversion fiat now t r).to_amount = .fin (fiat.amount * r) ∧
      (fiatConversion fiat now t r).rate = .fin (1 / r) ∧
      (fiatConversion fiat now t r).provider = "Frankfurter/ECB") ∧
    (∀ (fiat : FiatAmount) (now : Int) (p : CoinPrice), p.price ≠ 0 →
      (cryptoConversion fiat now p).to_amount = .fin (fiat.amount / p.price) ∧
      (cryptoConversion fiat now p).rate = .fin p.price ∧
      (cryptoConversion fiat now p).provider = p.provider) ∧
    (∀ (fiat : FiatAmount) (now : Int) (targets : List String)
        (fr : Except Error RatesMap) (cr : Except Error (List CoinPrice))
        (convs : List Conversion) (c : Conversion),
      convertCalc fiat now targets fr cr = .ok convs → c ∈ convs →
      (∃ rates t r, fr = .ok rates ∧ t ∈ targets ∧ is_known_fiat t = true ∧
        rates.lookup (strUpper t) = some r ∧ c = fiatConversion fiat now t r) ∨
      (∃ prices p, cr = .ok prices ∧ p ∈ prices ∧
        c = cryptoConversion fiat now p)) := by
  refine ⟨?_, ?_, convertCalc_mem⟩
  · intro fiat now t r hr
    exact ⟨rfl, by simp [fiatConversion, fvDiv, hr], rfl⟩
  · intro fiat now p hp
    exact ⟨by simp [cryptoConversion, fvDiv, hp], rfl, rfl⟩

/-- Witness for C1: both loop bodies at rate `2` / price `50000`, and the
engine-membership clause at a one-target crypto invocation. -/
theorem C1_conversion_conventions_witness :
    ((fiatConversion ⟨100, "USD"⟩ 3 "eur" 2).to_amount = .fin (100 * 2) ∧
      (fiatConversion ⟨100, "USD"⟩ 3 "eur" 2).rate = .fin (1 / 2) ∧
      (fiatConversion ⟨100, "USD"⟩ 3 "eur" 2).provider = "Frankfurter/ECB") ∧
    ((cryptoConversion ⟨100, "USD"⟩ 3
        ⟨"BTC", "Bitcoin", 50000, none, none, "USD", "CoinGecko", 3⟩).to_amount
        = .fin (100 / 50000) ∧
      (cryptoConversion ⟨100, "USD"⟩ 3
        ⟨"BTC", "Bitcoin", 50000, none, none, "USD", "CoinGecko", 3⟩).rate
        = .fin 50000 ∧
      (cryptoConversion ⟨100, "USD"⟩ 3
        ⟨"BTC", "Bitcoin", 50000, none, none, "USD", "CoinGecko", 3⟩).provider
        = "CoinGecko") ∧
    ((∃ rates t r, (.ok [] : Except Error RatesMap) = .ok rates ∧
        t ∈ ["btc"] ∧ is_known_fiat t = true ∧
        rates.lookup (strUpper t) = some r ∧
        cryptoConversion ⟨100, "USD"⟩ 3
            ⟨"BTC", "Bitcoin", 50000, none, none, "USD", "CoinGecko", 3⟩
          = fiatConversion ⟨100, "USD"⟩ 3 t r) ∨
      (∃ prices p,
        (.ok [⟨"BTC", "Bitcoin", 50000, none, none, "USD", "CoinGecko", 3⟩]
            : Except Error (List CoinPrice)) = .ok prices ∧ p ∈ prices ∧
        cryptoConversion ⟨100, "USD"⟩ 3
            ⟨"BTC", "Bitcoin", 50000, none, none, "USD", "CoinGecko", 3⟩
          = cryptoConversion ⟨100, "USD"⟩ 3 p)) :=
  ⟨C1_conversion_conventions.1 ⟨100, "USD"⟩ 3 "eur" 2 (by decide),
   C1_conversion_conventions.2.1 ⟨100, "USD"⟩ 3
     ⟨"BTC", "Bitcoin", 50000, none, none, "USD", "CoinGecko", 3⟩ (by decide),
   C1_conversion_conventions.2.2 ⟨100, "USD"⟩ 3 ["btc"] (.ok [])
     (.ok [⟨"BTC", "Bitcoin", 50000, none, none, "USD", "CoinGecko", 3⟩])
     [cryptoConversion ⟨100, "USD"⟩ 3
       ⟨"BTC", "Bitcoin", 50000, none, none, "USD", "CoinGecko", 3⟩]
     (cryptoConversion ⟨100, "USD"⟩ 3
       ⟨"BTC", "Bitcoin", 50000, none, none, "USD", "CoinGecko", 3⟩)
     rfl (List.mem_singleton.2 rfl)⟩

/-- C4: with both fiat and crypto targets present, the engine's result is
the fiat conversions first, in fiat-target input order, followed by the
crypto conversions in crypto-target input order (the crypto prices come
from the CoinGecko model, which walks its input symbols in order).  The
assembly is a pure function of the two completed fetch results, so the
completion order of the concurrent fetches cannot influence it. -/
theorem C4_result_ordering :
    ∀ (fiat : FiatAmount) (now pnow : Int) (targets : List String)
      (rates : RatesMap) (data : SimplePrice) (cur : String)
      (convs : List Conversion),
      targets.filter (fun t => is_known_fiat t) ≠ [] →
      targets.filter (not ∘ fun t => is_known_fiat t) ≠ [] →
      convertCalc fiat now targets (.ok rates)
          (getPricesCG data pnow
            (targets.filter (not ∘ fun t => is_known_fiat t)) cur)
        = .ok convs →
      convs =
        (targets.filter (fun t => is_known_fiat t)).filterMap (fun t =>
          (rates.lookup (strUpper t)).map (fiatConversion fiat now t))
        ++ (targets.filter (not ∘ fun t => is_known_fiat t)).filterMap
          (fun t =>
            (coinOf data (strLower cur) pnow t).map
              (cryptoConversion fiat now)) := by
  intro fiat now pnow targets rates data cur convs hf hc h
  rw [convertCalc_both fiat now targets _ _ hf hc] at h
  simp only [getPricesCG] at h
  by_cases hres : ((targets.filter (not ∘ fun t => is_known_fiat t)).filterMap
      (coinOf data (strLower cur) pnow)).isEmpty = true
  · rw [if_pos hres] at h
    cases h
  · rw [if_neg hres] at h
    injection h with h
    subst h
    rw [List.map_filterMap]

/-- Witness for C4: targets `["EUR", "btc", "GBP"]` from `3.5 USD`, FX map
`{EUR ↦ 2, GBP ↦ 4}`, CoinGecko response `{bitcoin: {usd: 50000}}`: the
result is the EUR conversion, then GBP, then BTC. -/
theorem C4_result_ordering_witness :
    [({ from_amount := 7/2, from_currency := "USD", to_symbol := "EUR",
        to_name := "Euro", to_amount := .fin (7/2 * 2), rate := .fin (1/2),
        provider := "Frankfurter/ECB", timestamp := 9 } : Conversion),
      { from_amount := 7/2, from_currency := "USD", to_symbol := "GBP",
        to_name := "British Pound", to_amount := .fin (7/2 * 4),
        rate := .fin (1/4), provider := "Frankfurter/ECB", timestamp := 9 },
      { from_amount := 7/2, from_currency := "USD", to_symbol := "BTC",
        to_name := "Bitcoin", to_amount := .fin (7/2 / 50000),
        rate := .fin 50000, provider := "CoinGecko", timestamp := 9 }] =
      (["EUR", "btc", "GBP"].filter (fun t => is_known_fiat t)).filterMap
        (fun t =>
          (([("EUR", (2:ℚ)), ("GBP", (4:ℚ))] : RatesMap).lookup
            (strUpper t)).map (fiatConversion ⟨7/2, "USD"⟩ 9 t))
      ++ (["EUR", "btc", "GBP"].filter
          (not ∘ fun t => is_known_fiat t)).filterMap (fun t =>
        (coinOf [("bitcoin", [("usd", (50000:ℚ))])] (strLower "USD") 7 t).map
          (cryptoConversion ⟨7/2, "USD"⟩ 9)) :=
  C4_result_ordering ⟨7/2, "USD"⟩ 9 7 ["EUR", "btc", "GBP"]
    [("EUR", (2:ℚ)), ("GBP", (4:ℚ))] [("bitcoin", [("usd", (50000:ℚ))])] "USD"
    _ (by decide) (by decide) rfl

/-- C6: input symbols with no match in the provider response contribute no
`CoinPrice` and no per-symbol error — the spot call yields exactly the
matched symbols' prices and fails (with `NoResults`) precisely when that
set is empty; likewise fiat targets absent from the FX rate map contribute
no `Conversion` and no error. -/
theorem C6_missing_entries_dropped :
    (∀ (data : SimplePrice) (now : Int) (symbols : List String)
        (currency : String) (e : Error),
      getPricesCG data now symbols currency = .error e ↔
        (e = .NoResults ∧
          ∀ s ∈ symbols, coinOf data (strLower currency) now s = none)) ∧
    (∀ (data : SimplePrice) (now : Int) (symbols : List String)
        (currency : String) (res : List CoinPrice),
      getPricesCG data now symbols currency = .ok res →
        res = symbols.filterMap (coinOf data (strLower currency) now)) ∧
    (∀ (fiat : FiatAmount) (now : Int) (targets : List String)
        (rates : RatesMap) (cr : Except Error (List CoinPrice)),
      targets ≠ [] → (∀ t ∈ targets, is_known_fiat t = true) →
      convertCalc fiat now targets (.ok rates) cr =
        .ok (targets.filterMap fun t =>
          (rates.lookup (strUpper t)).map (fiatConversion fiat now t))) := by
  refine ⟨?_, ?_, ?_⟩
  · intro data now symbols currency e
    simp only [getPricesCG]
    by_cases hres : (symbols.filterMap
        (coinOf data (strLower currency) now)).isEmpty = true
    · rw [if_pos hres]
      constructor
      · intro h
        injection h with h
        exact ⟨h.symm, List.filterMap_eq_nil_iff.1 (List.isEmpty_iff.1 hres)⟩
      · rintro ⟨rfl, -⟩
        rfl
    · rw [if_neg hres]
      constructor
      · intro h; cases h
      · rintro ⟨-, hall⟩
        exact absurd (List.isEmpty_iff.2 (List.filterMap_eq_nil_iff.2 hall)) hres
  · intro data now symbols currency res
    simp only [getPricesCG]
    by_cases hres : (symbols.filterMap
        (coinOf data (strLower currency) now)).isEmpty = true
    · rw [if_pos hres]
      intro h; cases h
    · rw [if_neg hres]
      intro h
      injection h with h
      exact h.symm
  · intro fiat now targets rates cr hne hall
    have hfe : targets.filter (fun t => is_known_fiat t) = targets :=
      List.filter_eq_self.2 hall
    have hce : targets.filter (not ∘ fun t => is_known_fiat t) = [] :=
      List.filter_eq_nil_iff.2 (by
        intro t ht
        simp [hall t ht])
    rw [convertCalc_fiat_only fiat now targets _ cr (by rw [hfe]; exact hne)
      hce, hfe]
    rfl

/-- Witness for C6: the drop-without-error clause with targets
`["EUR", "JPY"]` and an FX map that only holds EUR. -/
theorem C6_missing_entries_dropped_witness :
    convertCalc ⟨5, "USD"⟩ 3 ["EUR", "JPY"] (.ok [("EUR", (2:ℚ))]) (.ok []) =
      .ok (["EUR", "JPY"].filterMap fun t =>
        (([("EUR", (2:ℚ))] : RatesMap).lookup (strUpper t)).map
          (fiatConversion ⟨5, "USD"⟩ 3 t)) :=
  C6_missing_entries_dropped.2.2 ⟨5, "USD"⟩ 3 ["EUR", "JPY"]
    [("EUR", (2:ℚ))] (.ok []) (by decide) (by decide)

/-- C10: a well-formed response whose coin entry lacks the requested
currency key yields a `CoinPrice` with `price = 0`, and the engine divides
by it unguarded, producing a non-finite `to_amount` (positive infinity)
rather than an error. -/
theorem C10_zero_price_gives_nonfinite_amount :
    getPricesCG btcNoUsdData 7 ["btc"] "usd" = .ok [zeroPriceCoin] ∧
    zeroPriceCoin.price = 0 ∧
    convertCalc ⟨100, "USD"⟩ 9 ["btc"] (.ok [])
        (getPricesCG btcNoUsdData 7 ["btc"] "usd")
      = .ok [cryptoConversion ⟨100, "USD"⟩ 9 zeroPriceCoin] ∧
    (cryptoConversion ⟨100, "USD"⟩ 9 zeroPriceCoin).to_amount = .posInf ∧
    (cryptoConversion ⟨100, "USD"⟩ 9 zeroPriceCoin).to_amount.isFinite
      = false := by
  refine ⟨rfl, rfl, rfl, ?_, ?_⟩ <;>
    simp [cryptoConversion, zeroPriceCoin, fvDiv, FV.isFinite]

/-- C2: the explicit-window fetch result is used when it succeeds; the
day-count fetch result is consulted if and only if the window fetch failed
with a Config error whose message contains
`"does not support explicit chart date windows"`; every other failure
(Api, Parse, NoResults, or a differently-worded Config error) propagates
unchanged.  The provider trait's default window implementation produces a
triggering message for every provider id. -/
theorem C2_window_fallback_gating :
    (∀ (hs : List PriceHistory) (d : Except Error (List PriceHistory)),
      fetchHistoryOrchestration (.ok hs) d = .ok hs) ∧
    (∀ (m : String) (d : Except Error (List PriceHistory)),
      containsSub m windowUnsupportedMsg = true →
      fetchHistoryOrchestration (.error (.Config m)) d = d) ∧
    (∀ (m : String) (d : Except Error (List PriceHistory)),
      containsSub m windowUnsupportedMsg = false →
      fetchHistoryOrchestration (.error (.Config m)) d = .error (.Config m)) ∧
    (∀ (m : String) (d : Except Error (List PriceHistory)),
      fetchHistoryOrchestration (.error (.Api m)) d = .error (.Api m)) ∧
    (∀ (m : String) (d : Except Error (List PriceHistory)),
      fetchHistoryOrchestration (.error (.Parse m)) d = .error (.Parse m)) ∧
    (∀ d : Except Error (List PriceHistory),
      fetchHistoryOrchestration (.error .NoResults) d = .error .NoResults) ∧
    (∀ (id : String) (d : Except Error (List PriceHistory)),
      fetchHistoryOrchestration (.error (defaultWindowError id)) d = d) := by
  refine ⟨fun hs d => rfl, ?_, ?_, fun m d => rfl, fun m d => rfl,
    fun d => rfl, ?_⟩
  · intro m d hm
    rw [fetchHistoryOrchestration, if_pos hm]
  · intro m d hm
    rw [fetchHistoryOrchestration, if_neg]
    rw [hm]
    exact Bool.false_ne_true
  · intro id d
    have hm : containsSub
        ("provider " ++ sq ++ id ++ sq
          ++ " does not support explicit chart date windows")
        windowUnsupportedMsg = true := by
      rw [containsSub, decide_eq_true_eq]
      refine ⟨("provider " ++ sq ++ id ++ sq ++ " ").data, [], ?_⟩
      simp only [List.append_nil, String.data_append, List.append_assoc]
      congr 1
    rw [defaultWindowError, fetchHistoryOrchestration, if_pos hm]

/-- Witness for C2: the gating clauses at the trait's own message wording
(which contains the substring) and at a Config message that does not. -/
theorem C2_window_fallback_gating_witness :
    fetchHistoryOrchestration
        (.error (.Config
          ("provider " ++ sq ++ "stooq" ++ sq
            ++ " does not support explicit chart date windows")))
        (.ok []) = .ok [] ∧
    fetchHistoryOrchestration
        (.error (.Config ("provider " ++ sq ++ "stooq" ++ sq
          ++ " does not support chart mode")))
        (.ok [])
      = .error (.Config ("provider " ++ sq ++ "stooq" ++ sq
          ++ " does not support chart mode")) :=
  ⟨C2_window_fallback_gating.2.1
      ("provider " ++ sq ++ "stooq" ++ sq
        ++ " does not support explicit chart date windows")
      (.ok []) (by decide),
    C2_window_fallback_gating.2.2.1
      ("provider " ++ sq ++ "stooq" ++ sq ++ " does not support chart mode")
      (.ok []) (by decide)⟩

/-- C7: the chart-range resolver maps `YTD` to January 1st of the end
date's year, `ALL` to none, `1D`/`5D` to fixed subtraction of 1 and 5
days, and the month presets to calendar month subtraction (1/6/12/60
months) with their fixed day-count fallbacks (30/182/365/1825) used
exactly when the calendar subtraction is undefined; concretely for end
date 2026-02-20, `YTD` gives 2026-01-01, `1M` gives 2026-01-20 and `ALL`
gives none. -/
theorem C7_chart_range_resolver :
    (∀ e : NaiveDate, ChartRangeArg.start_date .All e = none) ∧
    (∀ e : NaiveDate,
      ChartRangeArg.start_date .OneDay e = some (subDays e 1)) ∧
    (∀ e : NaiveDate,
      ChartRangeArg.start_date .FiveDays e = some (subDays e 5)) ∧
    (∀ e : NaiveDate, MIN_YEAR ≤ e.year → e.year ≤ MAX_YEAR →
      ChartRangeArg.start_date .Ytd e = some ⟨e.year, 1, 1⟩) ∧
    (∀ (e d : NaiveDate), checked_sub_months e 1 = some d →
      ChartRangeArg.start_date .OneMonth e = some d) ∧
    (∀ e : NaiveDate, checked_sub_months e 1 = none →
      ChartRangeArg.start_date .OneMonth e = some (subDays e 30)) ∧
    (∀ (e d : NaiveDate), checked_sub_months e 6 = some d →
      ChartRangeArg.start_date .SixMonths e = some d) ∧
    (∀ e : NaiveDate, checked_sub_months e 6 = none →
      ChartRangeArg.start_date .SixMonths e = some (subDays e 182)) ∧
    (∀ (e d : NaiveDate), checked_sub_months e 12 = some d →
      ChartRangeArg.start_date .OneYear e = some d) ∧
    (∀ e : NaiveDate, checked_sub_months e 12 = none →
      ChartRangeArg.start_date .OneYear e = some (subDays e 365)) ∧
    (∀ (e d : NaiveDate), checked_sub_months e 60 = some d →
      ChartRangeArg.start_date .FiveYears e = some d) ∧
    (∀ e : NaiveDate, checked_sub_months e 60 = none →
      ChartRangeArg.start_date .FiveYears e = some (subDays e 1825)) ∧
    ChartRangeArg.start_date .Ytd ⟨2026, 2, 20⟩ = some ⟨2026, 1, 1⟩ ∧
    ChartRangeArg.start_date .OneMonth ⟨2026, 2, 20⟩ = some ⟨2026, 1, 20⟩ ∧
    ChartRangeArg.start_date .All ⟨2026, 2, 20⟩ = none := by
  refine ⟨fun e => rfl, fun e => rfl, fun e => rfl, ?_, ?_, ?_, ?_, ?_, ?_,
    ?_, ?_, ?_, by decide, by decide, by decide⟩
  · intro e h1 h2
    rw [ChartRangeArg.start_date, from_ymd_opt, if_pos]
    refine ⟨h1, h2, le_refl 1, by norm_num, le_refl 1, ?_⟩
    simp [daysInMonth]
  · intro e d h
    rw [ChartRangeArg.start_date, h, Option.or_some]
  · intro e h
    rw [ChartRangeArg.start_date, h, Option.none_or]
  · intro e d h
    rw [ChartRangeArg.start_date, h, Option.or_some]
  · intro e h
    rw [ChartRangeArg.start_date, h, Option.none_or]
  · intro e d h
    rw [ChartRangeArg.start_date, h, Option.or_some]
  · intro e h
    rw [ChartRangeArg.start_date, h, Option.none_or]
  · intro e d h
    rw [ChartRangeArg.start_date, h, Option.or_some]
  · intro e h
    rw [ChartRangeArg.start_date, h, Option.none_or]
    norm_num

/-- Witness for C7: the YTD clause and both month-subtraction clauses at
concrete dates — `1M` from 2026-03-31 clamps to 2026-02-28, and the
day-count fallback fires at the representable-range floor. -/
theorem C7_chart_range_resolver_witness :
    ChartRangeArg.start_date .Ytd ⟨2026, 2, 20⟩
      = some ⟨(⟨2026, 2, 20⟩ : NaiveDate).year, 1, 1⟩ ∧
    ChartRangeArg.start_date .OneMonth ⟨2026, 3, 31⟩
      = some ⟨2026, 2, 28⟩ ∧
    ChartRangeArg.start_date .OneMonth ⟨-262144, 1, 15⟩
      = some (subDays ⟨-262144, 1, 15⟩ 30) :=
  ⟨C7_chart_range_resolver.2.2.2.1 ⟨2026, 2, 20⟩ (by decide) (by decide),
    C7_chart_range_resolver.2.2.2.2.1 ⟨2026, 3, 31⟩ ⟨2026, 2, 28⟩ (by decide),
    C7_chart_range_resolver.2.2.2.2.2.1 ⟨-262144, 1, 15⟩ (by decide)⟩

end Cryptoprice
